import Mathlib

/-!
Shallow embedding of `src/tools/primitives/getCustomPerspectiveTasks.ts`
(and the task-link helper `src/utils/taskLinkFormatter.ts`) from the
omnifocus-mcp-enhanced repository, together with proofs about the three
renderers (hierarchical tree, grouped-by-project, flat) and the
orchestrator.

Modelling conventions:
- JS strings are Lean `String`s; the note field is kept as `List Char`
  because the code slices it character-wise (`trim`, `substring`,
  `length`).
- A JS field that can be `undefined` is an `Option`; a field that can be
  `undefined` or `null` or a value is an `Option (Option _)`
  (`none` = absent/undefined, `some none` = null).
- JS truthiness tests on strings (`if (task.project)`) are modelled as
  the explicit test "present and non-empty".
- `Date.toLocaleDateString` is a platform locale call whose text no claim
  inspects; it is modelled as the identity on the raw timestamp string.
- The recursive tree renderer is embedded with an explicit fuel argument
  (one unit per tree level, matching the call-stack depth of the source);
  `none` means the source recursion does not bottom out within that depth.
-/

/-- One task record as produced by parsing the perspective query response
(spec §3, consumed field-by-field in `getCustomPerspectiveTasks.ts`). -/
structure TaskRecord where
  id : String
  name : String
  completed : Bool
  flagged : Bool
  project : Option String
  tags : List String
  dueDate : Option String
  estimatedMinutes : Option Nat
  note : Option (List Char)
  parent : Option (Option String)
  children : List String
deriving DecidableEq, Repr

/-- The task map: a JS object keyed by id, i.e. an insertion-ordered
association list (`Object.values` returns values in insertion order). -/
def TaskMap : Type := List (String × TaskRecord)

instance : DecidableEq TaskMap := by unfold TaskMap; infer_instance

/-- `taskMap[childId]` — object property lookup. -/
def lookupTask (tm : TaskMap) (cid : String) : Option TaskRecord :=
  (List.find? (fun kv => kv.1 == cid) tm).map Prod.snd

/-- `Object.values(taskMap)` in insertion order. -/
def taskMapValues (tm : TaskMap) : List TaskRecord :=
  List.map Prod.snd tm

/-- JS `String.prototype.trim` over the characters of the note. -/
def jsTrim (s : List Char) : List Char :=
  ((s.dropWhile Char.isWhitespace).reverse.dropWhile Char.isWhitespace).reverse

/-- The note preview characters: `note.trim().substring(0, budget)` followed
by `'...'` exactly when `note.length > budget` — the length test is on the
ORIGINAL (untrimmed) note, as in lines 171-174 and 218-221 of the source. -/
def notePreviewText (budget : Nat) (note : List Char) : List Char :=
  (jsTrim note).take budget ++ (if budget < note.length then "...".toList else [])

/-- The `${hours}h${...}m` / `${minutes}m` estimate body shared by the three
renderers; `sep` is the text between `h` and the minute part (`" "` in the
detail/flat renderers, `""` in the grouped renderer). -/
def estimateBody (sep : String) (m : Nat) : String :=
  let hours := m / 60
  let minutes := m % 60
  if hours > 0 then
    toString hours ++ "h" ++ (if minutes > 0 then sep ++ toString minutes ++ "m" else "")
  else
    toString minutes ++ "m"

/-- The estimate detail line of `formatTaskDetails` (lines 161-169):
pushed only when `task.estimatedMinutes` is truthy (present and nonzero). -/
def estimateDetailLines (em : Option Nat) : List String :=
  match em with
  | some m => if m = 0 then [] else ["预估: " ++ estimateBody " " m]
  | none => []

/-- The estimate fragment of a flat-mode task block (lines 208-216). -/
def estimateFlatText (em : Option Nat) : String :=
  match em with
  | some m => if m = 0 then "" else "\n   预估: " ++ estimateBody " " m
  | none => ""

/-- The estimate fragment of a grouped-mode task line (lines 303-311). -/
def estimateGroupText (em : Option Nat) : String :=
  match em with
  | some m => if m = 0 then "" else " ⏱️ " ++ estimateBody "" m
  | none => ""

/-- `Date.toLocaleDateString()` — platform locale conversion, modelled as
the identity on the raw timestamp string (no claim inspects the text). -/
def toLocaleDateString (s : String) : String := s

/-- `Date.toLocaleDateString('zh-CN', {month:'short', day:'numeric'})` —
platform locale conversion, modelled as the identity likewise. -/
def toLocaleDateStringZhCN (s : String) : String := s

/-- `formatTaskLink` from `src/utils/taskLinkFormatter.ts`. -/
def formatTaskLink (taskId : String) : String :=
  if taskId = "" then "" else "[開く](omnifocus:///task/" ++ taskId ++ ")"

/-- `formatTaskName` (lines 134-142). -/
def formatTaskName (task : TaskRecord) : String :=
  let n := "**" ++ task.name ++ "**"
  if task.completed then "~~" ++ n ++ "~~ [完成]"
  else if task.flagged then "[重要] " ++ n
  else n

/-- `formatTaskDetails` (lines 145-177): the ordered optional detail lines
of one task in the hierarchical renderer. -/
def formatTaskDetails (task : TaskRecord) : List String :=
  (match task.project with
   | some p => if p = "" then [] else ["项目: " ++ p]
   | none => []) ++
  (if task.tags.isEmpty then [] else ["标签: " ++ String.intercalate ", " task.tags]) ++
  (match task.dueDate with
   | some d => if d = "" then [] else ["截止: " ++ toLocaleDateString d]
   | none => []) ++
  estimateDetailLines task.estimatedMinutes ++
  (match task.note with
   | some n => if n.isEmpty || (jsTrim n).isEmpty then []
               else ["备注: " ++ String.mk (notePreviewText 60 n)]
   | none => [])

/-- The child resolution of `renderTaskTree` (lines 120-123):
`task.children.map(id => taskMap[id]).filter(c => c && (!hideCompleted || !c.completed))`
— ids absent from the map are dropped, then completed children are dropped
when `hideCompleted` is set, BEFORE last-sibling determination. -/
def filteredChildren (tm : TaskMap) (hideCompleted : Bool) (task : TaskRecord) : List TaskRecord :=
  (task.children.filterMap (lookupTask tm)).filter (fun c => !hideCompleted || !c.completed)

/-- The sibling loop shared by `renderTaskTree`'s children pass (lines
125-129) and `formatHierarchicalTasks`'s root pass (lines 93-96): each
element is rendered by `r` with the shared prefix `pfx` and with
`isLast` exactly when it is the final element of the (already filtered)
list; the emitted line blocks are concatenated. -/
def renderSiblings (r : TaskRecord → String → Bool → Option (List String))
    (pfx : String) : List TaskRecord → Option (List String)
  | [] => some []
  | c :: rest =>
    match r c pfx rest.isEmpty, renderSiblings r pfx rest with
    | some l1, some l2 => some (l1 ++ l2)
    | _, _ => none

/-- `renderTaskTree` (lines 102-131), with an explicit fuel bounding the
recursion depth: the source recursion has no visited set and no depth
ceiling, so `none` models a recursion that has not bottomed out within
`fuel` tree levels. For any acyclic map a fuel larger than the tree depth
yields `some`. -/
def renderTaskTree : Nat → TaskMap → Bool → TaskRecord → String → Bool → Option (List String)
  | 0, _, _, _, _, _ => none
  | fuel + 1, tm, hideCompleted, task, pfx, isLast =>
    let currentPfx := pfx ++ (if isLast then "└─ " else "├─ ")
    let taskLine := currentPfx ++ formatTaskName task ++ " " ++ formatTaskLink task.id
    let detailPfx := pfx ++ (if isLast then "   " else "│  ")
    let detailLines := (formatTaskDetails task).map (fun d => detailPfx ++ d)
    match renderSiblings (renderTaskTree fuel tm hideCompleted) detailPfx
        (filteredChildren tm hideCompleted task) with
    | some childLines => some (taskLine :: (detailLines ++ childLines))
    | none => none

/-- The root set of `formatHierarchicalTasks` (lines 79-84): records whose
`parent === null` (strictly null — an absent/undefined parent does NOT
pass `=== null`), with completed roots dropped when `hideCompleted`. -/
def hierRoots (tm : TaskMap) (hideCompleted : Bool) : List TaskRecord :=
  let rootTasks := (taskMapValues tm).filter (fun t => t.parent == some none)
  if hideCompleted then rootTasks.filter (fun t => !t.completed) else rootTasks

/-- `formatHierarchicalTasks` (lines 75-99). -/
def formatHierarchicalTasks (fuel : Nat) (perspectiveName : String)
    (tm : TaskMap) (hideCompleted : Bool) : Option String :=
  let header := "**透视任务：" ++ perspectiveName ++ "** (层级视图)\n\n"
  let filteredRootTasks := hierRoots tm hideCompleted
  if filteredRootTasks.isEmpty then
    some (header ++ "暂无" ++ (if hideCompleted then "未完成" else "") ++ "根任务。")
  else
    (renderSiblings (renderTaskTree fuel tm hideCompleted) "" filteredRootTasks).map
      (fun taskTreeLines => header ++ String.intercalate "\n" taskTreeLines)

/-- `tasks.slice(0, limit)` applied when `limit && limit > 0` (lines
181-185 and 236-239, identical in the flat and grouped renderers). -/
def displayedTasks (tasks : List TaskRecord) (limit : Int) : List TaskRecord :=
  if 0 < limit then tasks.take limit.toNat else tasks

/-- One numbered block of the flat renderer (lines 188-225). -/
def formatFlatTaskBlock (index : Nat) (task : TaskRecord) : String :=
  toString (index + 1) ++ ". **" ++ task.name ++ "**"
  ++ (match task.project with
      | some p => if p = "" then "" else "\n   项目: " ++ p
      | none => "")
  ++ (if task.tags.isEmpty then "" else "\n   标签: " ++ String.intercalate ", " task.tags)
  ++ (match task.dueDate with
      | some d => if d = "" then "" else "\n   截止: " ++ toLocaleDateString d
      | none => "")
  ++ (if task.flagged then "\n   [重要]" else "")
  ++ estimateFlatText task.estimatedMinutes
  ++ (match task.note with
      | some n => if n.isEmpty || (jsTrim n).isEmpty then ""
                  else "\n   备注: " ++ String.mk (notePreviewText 100 n)
      | none => "")
  ++ "\n   " ++ formatTaskLink task.id

/-- The flat renderer's truncation notice (line 228):
`totalCount > displayTasks.length ? ... : ''`; an absent `count` compares
false in JS. -/
def flatFooter (displayedLength : Nat) (totalCount : Option Nat) : String :=
  match totalCount with
  | some c =>
    if displayedLength < c then
      "\n\n提示: 共找到 " ++ toString c ++ " 个任务，显示 " ++ toString displayedLength ++ " 个"
    else ""
  | none => ""

/-- `formatFlatTasks` (lines 180-231). -/
def formatFlatTasks (perspectiveName : String) (tasks : List TaskRecord)
    (limit : Int) (totalCount : Option Nat) : String :=
  let displayTasks := displayedTasks tasks limit
  let taskList := String.intercalate "\n\n" (displayTasks.mapIdx formatFlatTaskBlock)
  let header := "**透视任务：" ++ perspectiveName ++ "** (" ++ toString displayTasks.length ++ "个任务)\n\n"
  header ++ taskList ++ flatFooter displayTasks.length totalCount

/-- The truthy project key used by the grouped renderer's bucketing
(line 246, `if (task.project)`): present and non-empty. -/
def projectOf (task : TaskRecord) : Option String :=
  match task.project with
  | some p => if p = "" then none else some p
  | none => none

/-- `projectGroups.get(name).push(task)` on an insertion-ordered mapping
(lines 248-251): the first bucket with key `p` is extended, or a fresh
bucket is appended at the end when none exists. -/
def addToGroups (gs : List (String × List TaskRecord)) (p : String)
    (t : TaskRecord) : List (String × List TaskRecord) :=
  match gs with
  | [] => [(p, [t])]
  | (q, ts) :: rest =>
    if q = p then (q, ts ++ [t]) :: rest else (q, ts) :: addToGroups rest p t

/-- One step of the `displayTasks.forEach` bucketing loop (lines 245-255):
a task with a truthy project goes to its project bucket, any other task is
appended to `noProjectTasks`. -/
def groupStep (acc : List (String × List TaskRecord) × List TaskRecord)
    (t : TaskRecord) : List (String × List TaskRecord) × List TaskRecord :=
  match projectOf t with
  | some p => (addToGroups acc.1 p t, acc.2)
  | none => (acc.1, acc.2 ++ [t])

/-- The whole bucketing pass: `(projectGroups, noProjectTasks)` after the
`forEach` over the display tasks. -/
def groupTasks (tasks : List TaskRecord) : List (String × List TaskRecord) × List TaskRecord :=
  tasks.foldl groupStep ([], [])

/-- `formatTaskForGroup` (lines 285-315). -/
def formatTaskForGroup (task : TaskRecord) : String :=
  let statusIcon := if task.completed then "✅" else if task.flagged then "🔶" else "○"
  "- " ++ statusIcon ++ " **" ++ task.name ++ "**"
  ++ (if task.tags.isEmpty then "" else " `" ++ String.intercalate "` `" task.tags ++ "`")
  ++ (match task.dueDate with
      | some d => if d = "" then "" else " 📅 " ++ toLocaleDateStringZhCN d
      | none => "")
  ++ estimateGroupText task.estimatedMinutes
  ++ " " ++ formatTaskLink task.id

/-- The lines of one project bucket section (lines 261-267). -/
def projectSection (p : String) (ts : List TaskRecord) : List String :=
  ("\n### 📁 " ++ p) :: "" :: ts.map formatTaskForGroup

/-- The lines of the trailing inbox section (lines 270-276). -/
def inboxSection (ts : List TaskRecord) : List String :=
  "\n### 📥 收件箱" :: "" :: ts.map formatTaskForGroup

/-- The grouped renderer's body lines: every project bucket in mapping
order, then the inbox section only when `noProjectTasks` is non-empty. -/
def groupedBodyLines (gs : List (String × List TaskRecord))
    (noProjectTasks : List TaskRecord) : List String :=
  gs.flatMap (fun g => projectSection g.1 g.2)
  ++ (if noProjectTasks.isEmpty then [] else inboxSection noProjectTasks)

/-- The grouped renderer's truncation notice (line 279). -/
def groupedFooter (displayedLength : Nat) (totalCount : Option Nat) : String :=
  match totalCount with
  | some c =>
    if displayedLength < c then
      "\n\n---\n💡 *共找到 " ++ toString c ++ " 个任务，显示 " ++ toString displayedLength ++ " 个*"
    else ""
  | none => ""

/-- `formatGroupedByProject` (lines 234-282). The summary header counts
`projectGroups.size` — the project buckets only, never the inbox. -/
def formatGroupedByProject (perspectiveName : String) (tasks : List TaskRecord)
    (limit : Int) (totalCount : Option Nat) : String :=
  let displayTasks := displayedTasks tasks limit
  let gi := groupTasks displayTasks
  let header := "## 透视任务：" ++ perspectiveName ++ "\n\n**共 "
    ++ toString displayTasks.length ++ " 个任务，" ++ toString gi.1.length ++ " 个项目**"
  header ++ String.intercalate "\n" (groupedBodyLines gi.1 gi.2)
    ++ groupedFooter displayTasks.length totalCount

/-- The structured shape of the collaborator's reply (spec §6):
`{ success, error?, taskMap?, count? }`. -/
structure PerspectiveData where
  success : Bool
  error : Option String
  taskMap : Option TaskMap
  count : Option Nat
deriving DecidableEq

/-- The value `executeOmniFocusScript` hands back, as the orchestrator's
normalisation (lines 26-38) distinguishes it: a raw string payload
together with the outcome of `JSON.parse` on it (`none` = the platform
parser throws), an already-structured object, or a value of any other
type (carried here as its `typeof` text and display text). -/
inductive ScriptResult where
  | stringResult : String → Option PerspectiveData → ScriptResult
  | objectResult : PerspectiveData → ScriptResult
  | invalidResult : String → String → ScriptResult
deriving DecidableEq

/-- Lines 26-38 plus the surrounding try/catch: the decode step, with the
exact thrown messages that the catch block will prefix. -/
def normalizeResult : ScriptResult → Except String PerspectiveData
  | .stringResult raw none => .error ("解析字符串结果失败: " ++ raw)
  | .stringResult _ (some d) => .ok d
  | .objectResult d => .ok d
  | .invalidResult ty val => .error ("脚本执行返回了无效的结果类型: " ++ ty ++ ", 值: " ++ val)

/-- `data.error || 'Unknown error occurred'` (line 42): JS `||` falls back
on a falsy (absent OR empty) message. -/
def collaboratorErrorMessage (d : PerspectiveData) : String :=
  match d.error with
  | some e => if e = "" then "Unknown error occurred" else e
  | none => "Unknown error occurred"

/-- The `hideCompleted` filter of the orchestrator (lines 50-53). -/
def orchestratorFiltered (hideCompleted : Bool) (allTasks : List TaskRecord) : List TaskRecord :=
  if hideCompleted then allTasks.filter (fun t => !t.completed) else allTasks

/-- The options object (lines 4-10) with its defaults (line 13). -/
structure GetCustomPerspectiveTasksOptions where
  perspectiveName : String
  hideCompleted : Bool := true
  limit : Int := 1000
  showHierarchy : Bool := false
  groupByProject : Bool := true
deriving DecidableEq

/-- `getCustomPerspectiveTasks` (lines 12-72). The external script call is
parametrised by its (already-arrived) result; every throw inside the try
is rendered by the catch block as `❌ **错误**: message`. `none` arises
only on the hierarchical path, when `fuel` does not cover the recursion
depth (unbounded in the source). -/
def getCustomPerspectiveTasks (fuel : Nat) (options : GetCustomPerspectiveTasksOptions)
    (result : ScriptResult) : Option String :=
  if options.perspectiveName = "" then some "❌ **错误**: 透视名称不能为空"
  else
    match normalizeResult result with
    | .error msg => some ("❌ **错误**: " ++ msg)
    | .ok data =>
      if !data.success then some ("❌ **错误**: " ++ collaboratorErrorMessage data)
      else
        let tm := data.taskMap.getD []
        let filteredTasks := orchestratorFiltered options.hideCompleted (taskMapValues tm)
        if filteredTasks.isEmpty then
          some ("**透视任务：" ++ options.perspectiveName ++ "**\n\n暂无"
            ++ (if options.hideCompleted then "未完成" else "") ++ "任务。")
        else if options.showHierarchy then
          formatHierarchicalTasks fuel options.perspectiveName tm options.hideCompleted
        else if options.groupByProject then
          some (formatGroupedByProject options.perspectiveName filteredTasks options.limit data.count)
        else
          some (formatFlatTasks options.perspectiveName filteredTasks options.limit data.count)

/-- A string append is non-empty whenever its left part is. -/
lemma append_ne_empty_of_ne_empty (s t : String) (h : s ≠ "") : s ++ t ≠ "" := by
  intro he
  have hl := congrArg String.length he
  rw [String.length_append, String.length_empty] at hl
  apply h
  have hs : s.length = 0 := by omega
  cases s with
  | mk data =>
    cases data with
    | nil => rfl
    | cons c cs => simp [String.length] at hs

/-- A task record with every optional field absent (base for examples). -/
def plainTask : TaskRecord :=
  { id := "", name := "", completed := false, flagged := false, project := none,
    tags := [], dueDate := none, estimatedMinutes := none, note := none,
    parent := some none, children := [] }

/-- A task whose note is `" a"`: length 2 (within every budget), but its
rendered preview is the trimmed `"a"`, not the note unchanged. -/
def noteEdgeTask : TaskRecord :=
  { plainTask with id := "t1", name := "n", note := some [' ', 'a'] }

/-- C1 counterexample: the note `" a"` has length ≤ 60 yet is NOT rendered
unchanged — `formatTaskDetails` renders the trimmed preview `"a"`, because
the source truncates `note.trim()`, not `note`. -/
theorem notePreview_claim_counterexample :
    formatTaskDetails noteEdgeTask = ["备注: a"] ∧
    ([' ', 'a'] : List Char).length ≤ 60 ∧
    notePreviewText 60 [' ', 'a'] = ['a'] ∧
    notePreviewText 60 [' ', 'a'] ≠ [' ', 'a'] := by
  refine ⟨by decide, by decide, by decide, by decide⟩

/-- C1 amended: the preview is computed from the TRIMMED note (while the
ellipsis test uses the original length); for a note without leading or
trailing whitespace the originally claimed exactness holds: length ≤
budget renders the note unchanged, length > budget renders exactly the
first `budget` characters followed by `...`. -/
theorem notePreview_exact_amended (budget : Nat) (note : List Char)
    (h : jsTrim note = note) :
    (note.length ≤ budget → notePreviewText budget note = note) ∧
    (budget < note.length →
      notePreviewText budget note = note.take budget ++ "...".toList) := by
  constructor
  · intro hle
    unfold notePreviewText
    rw [h, List.take_of_length_le hle, if_neg (by omega)]
    simp
  · intro hlt
    unfold notePreviewText
    rw [h, if_pos hlt]

/-- C1 witness: the amended statement evaluated at a 61-character note and
budget 60. -/
theorem notePreview_exact_witness :
    ((List.replicate 61 'a').length ≤ 60 →
        notePreviewText 60 (List.replicate 61 'a') = List.replicate 61 'a') ∧
    (60 < (List.replicate 61 'a').length →
        notePreviewText 60 (List.replicate 61 'a')
          = (List.replicate 61 'a').take 60 ++ "...".toList) :=
  notePreview_exact_amended 60 (List.replicate 61 'a') (by decide)

/-- A root task that lists itself among its own children: the smallest
cyclic TaskMap. -/
def cyclicTask : TaskRecord :=
  { plainTask with id := "a", name := "A", children := ["a"] }

/-- The cyclic map on which the tree renderer never terminates. -/
def cyclicMap : TaskMap := [("a", cyclicTask)]

lemma renderTaskTree_cyclic_none :
    ∀ (fuel : Nat) (pfx : String) (isLast : Bool),
      renderTaskTree fuel cyclicMap true cyclicTask pfx isLast = none := by
  intro fuel
  induction fuel with
  | zero => intro pfx isLast; rfl
  | succ n ih =>
    intro pfx isLast
    have hfc : filteredChildren cyclicMap true cyclicTask = [cyclicTask] := rfl
    simp only [renderTaskTree, hfc, renderSiblings, List.isEmpty_nil, ih]

/-- C2: on the cyclic map the recursion of `renderTaskTree` never bottoms
out — no recursion depth (fuel) suffices, at any prefix position — and
consequently the hierarchical renderer never produces output on it. The
source carries no visited set and no depth ceiling, so this models
unbounded recursion. -/
theorem renderTaskTree_cyclic_diverges :
    ∀ (fuel : Nat) (pfx : String) (isLast : Bool),
      renderTaskTree fuel cyclicMap true cyclicTask pfx isLast = none ∧
      formatHierarchicalTasks fuel "P" cyclicMap true = none := by
  intro fuel pfx isLast
  refine ⟨renderTaskTree_cyclic_none fuel pfx isLast, ?_⟩
  have h := renderTaskTree_cyclic_none fuel "" true
  have hr : hierRoots cyclicMap true = [cyclicTask] := rfl
  simp [formatHierarchicalTasks, hr, renderSiblings, List.filter_nil,
    List.map_nil, List.isEmpty_nil, h]

/-- A record whose `parent` field is absent (undefined), not null. -/
def absentParentTask : TaskRecord :=
  { plainTask with id := "x", name := "X", parent := none }

/-- A map holding only that record. -/
def absentParentMap : TaskMap := [("x", absentParentTask)]

/-- C6 counterexample: a record whose `parent` is absent (undefined) is NOT
in the root set — `task.parent === null` rejects `undefined` — so the map's
single record is never rendered and the no-root message is returned
instead. -/
theorem hierRoots_absent_parent_counterexample :
    taskMapValues absentParentMap = [absentParentTask] ∧
    absentParentTask.parent = none ∧
    absentParentTask.completed = false ∧
    hierRoots absentParentMap false = [] ∧
    hierRoots absentParentMap true = [] ∧
    formatHierarchicalTasks 5 "P" absentParentMap true
      = some "**透视任务：P** (层级视图)\n\n暂无未完成根任务。" := by
  refine ⟨rfl, rfl, rfl, rfl, rfl, by decide⟩

/-- C6 amended: the hierarchical root set is exactly the records whose
`parent` is strictly null (`some none` in the embedding), with completed
roots dropped when `hideCompleted`; a record with an absent/undefined
parent is not a root. -/
theorem hierRoots_strict_null_amended :
    ∀ (tm : TaskMap) (hideCompleted : Bool) (t : TaskRecord),
      t ∈ hierRoots tm hideCompleted ↔
        t ∈ taskMapValues tm ∧ t.parent = some none ∧
          (hideCompleted = true → t.completed = false) := by
  intro tm hide t
  unfold hierRoots
  cases hide <;>
    simp [List.mem_filter, and_assoc, Bool.not_eq_true', and_comm]

/-- The task with its raw `children` list pre-filtered to exactly the ids
the renderer keeps: ids resolvable in the map whose record passes the
hide-completed test. -/
def prunedChildrenTask (tm : TaskMap) (hideCompleted : Bool) (task : TaskRecord) : TaskRecord :=
  { task with
    children := task.children.filter (fun cid =>
      match lookupTask tm cid with
      | some c => !hideCompleted || !c.completed
      | none => false) }

lemma filteredChildren_pruned (tm : TaskMap) (hide : Bool) (task : TaskRecord) :
    filteredChildren tm hide (prunedChildrenTask tm hide task)
      = filteredChildren tm hide task := by
  show ((task.children.filter _).filterMap (lookupTask tm)).filter _
      = (task.children.filterMap (lookupTask tm)).filter _
  induction task.children with
  | nil => rfl
  | cons cid rest ih =>
    cases hcid : lookupTask tm cid with
    | none => simp [List.filter_cons, List.filterMap_cons, hcid, ih]
    | some c =>
      cases hc : (!hide || !c.completed) with
      | false => simp [List.filter_cons, List.filterMap_cons, hcid, hc, ih]
      | true => simp [List.filter_cons, List.filterMap_cons, hcid, hc, ih]

/-- C7: rendering is invariant under pre-filtering the raw `children`
list to the ids the renderer keeps: children are resolved through the map
in listed order, an id absent from the map is silently dropped (never an
error — the renderer is total apart from fuel), completed children are
dropped when `hideCompleted` is set, and all of this happens BEFORE
last-sibling determination, so the filtered list — not the raw one —
decides which child is rendered with the last-sibling connector. -/
theorem renderTaskTree_children_prefilter_invariant :
    ∀ (fuel : Nat) (tm : TaskMap) (hideCompleted : Bool) (task : TaskRecord)
      (pfx : String) (isLast : Bool),
      renderTaskTree fuel tm hideCompleted (prunedChildrenTask tm hideCompleted task) pfx isLast
        = renderTaskTree fuel tm hideCompleted task pfx isLast := by
  intro fuel tm hide task pfx isLast
  cases fuel with
  | zero => rfl
  | succ n =>
    unfold renderTaskTree
    rw [filteredChildren_pruned]
    rfl

/-- C10: in all three renderers an estimate is rendered iff
`estimatedMinutes` is present and nonzero (a present 0 renders nothing);
when rendered with hours > 0 and remaining minutes = 0 the minute part is
omitted (`Hh` only), and with hours = 0 only the minute part (`Mm`) is
shown. -/
theorem estimate_render_iff :
    ∀ (em : Option Nat) (m : Nat),
      ((estimateDetailLines em = [] ∧ estimateFlatText em = "" ∧ estimateGroupText em = "")
        ↔ (em = none ∨ em = some 0))
      ∧ (0 < m → m % 60 = 0 →
          estimateBody " " m = toString (m / 60) ++ "h"
            ∧ estimateBody "" m = toString (m / 60) ++ "h")
      ∧ (0 < m → m < 60 → ∀ sep, estimateBody sep m = toString m ++ "m") := by
  intro em m
  refine ⟨?_, ?_, ?_⟩
  · cases em with
    | none => simp [estimateDetailLines, estimateFlatText, estimateGroupText]
    | some k =>
      by_cases hk : k = 0
      · subst hk
        simp [estimateDetailLines, estimateFlatText, estimateGroupText]
      · simp [estimateDetailLines, estimateFlatText, estimateGroupText, hk]
  · intro h0 h60
    have h1 : 0 < m / 60 := by omega
    constructor <;> simp [estimateBody, h1, h60]
  · intro h0 hlt sep
    have h1 : m / 60 = 0 := Nat.div_eq_of_lt hlt
    have h2 : m % 60 = m := Nat.mod_eq_of_lt hlt
    simp [estimateBody, h1, h2]

/-- C4: for every task sequence, limit and totalCount, the flat and
grouped renderers display the first `limit` tasks when the limit is
positive (hence at most `limit`) and all tasks otherwise, and each
renderer's truncation footer is non-empty iff `totalCount` exceeds the
number of displayed tasks. -/
theorem displayed_limit_and_footer :
    ∀ (tasks : List TaskRecord) (limit : Int) (c : Nat),
      tasks ≠ [] →
      ((0 < limit → displayedTasks tasks limit = tasks.take limit.toNat
          ∧ (displayedTasks tasks limit).length ≤ limit.toNat)
       ∧ (limit ≤ 0 → displayedTasks tasks limit = tasks)
       ∧ (flatFooter (displayedTasks tasks limit).length (some c) ≠ ""
          ↔ (displayedTasks tasks limit).length < c)
       ∧ (groupedFooter (displayedTasks tasks limit).length (some c) ≠ ""
          ↔ (displayedTasks tasks limit).length < c)) := by
  intro tasks limit c _h
  refine ⟨?_, ?_, ?_, ?_⟩
  · intro hpos
    unfold displayedTasks
    rw [if_pos hpos]
    refine ⟨rfl, ?_⟩
    simp [List.length_take]
  · intro hneg
    unfold displayedTasks
    rw [if_neg (by omega)]
  · simp only [flatFooter]
    by_cases h : (displayedTasks tasks limit).length < c
    · rw [if_pos h]
      simp only [h, iff_true]
      exact append_ne_empty_of_ne_empty _ _
        (append_ne_empty_of_ne_empty _ _
          (append_ne_empty_of_ne_empty _ _
            (append_ne_empty_of_ne_empty _ _ (by decide))))
    · rw [if_neg h]
      simp [h]
  · simp only [groupedFooter]
    by_cases h : (displayedTasks tasks limit).length < c
    · rw [if_pos h]
      simp only [h, iff_true]
      exact append_ne_empty_of_ne_empty _ _
        (append_ne_empty_of_ne_empty _ _
          (append_ne_empty_of_ne_empty _ _
            (append_ne_empty_of_ne_empty _ _ (by decide))))
    · rw [if_neg h]
      simp [h]

/-- C4 witness: the limit/footer statement evaluated at one task,
limit 1, totalCount 5. -/
theorem displayed_limit_and_footer_witness :
    ((0 < (1 : Int) → displayedTasks [plainTask] 1 = [plainTask].take (1 : Int).toNat
        ∧ (displayedTasks [plainTask] 1).length ≤ (1 : Int).toNat)
     ∧ ((1 : Int) ≤ 0 → displayedTasks [plainTask] 1 = [plainTask])
     ∧ (flatFooter (displayedTasks [plainTask] 1).length (some 5) ≠ ""
        ↔ (displayedTasks [plainTask] 1).length < 5)
     ∧ (groupedFooter (displayedTasks [plainTask] 1).length (some 5) ≠ ""
        ↔ (displayedTasks [plainTask] 1).length < 5)) :=
  displayed_limit_and_footer [plainTask] 1 5 (by decide)

/-- C5: with a valid non-empty perspective name, a successfully decoded
result and a non-empty filtered task list, exactly one renderer runs, with
priority hierarchical > grouped > flat: `showHierarchy` selects the
hierarchical renderer regardless of `groupByProject`; otherwise
`groupByProject` selects the grouped renderer; otherwise the flat one. -/
theorem dispatch_priority :
    ∀ (fuel : Nat) (options : GetCustomPerspectiveTasksOptions)
      (result : ScriptResult) (data : PerspectiveData),
      options.perspectiveName ≠ "" →
      normalizeResult result = .ok data →
      data.success = true →
      orchestratorFiltered options.hideCompleted (taskMapValues (data.taskMap.getD [])) ≠ [] →
      ((options.showHierarchy = true →
          getCustomPerspectiveTasks fuel options result
            = formatHierarchicalTasks fuel options.perspectiveName
                (data.taskMap.getD []) options.hideCompleted)
       ∧ (options.showHierarchy = false → options.groupByProject = true →
          getCustomPerspectiveTasks fuel options result
            = some (formatGroupedByProject options.perspectiveName
                (orchestratorFiltered options.hideCompleted (taskMapValues (data.taskMap.getD [])))
                options.limit data.count))
       ∧ (options.showHierarchy = false → options.groupByProject = false →
          getCustomPerspectiveTasks fuel options result
            = some (formatFlatTasks options.perspectiveName
                (orchestratorFiltered options.hideCompleted (taskMapValues (data.taskMap.getD [])))
                options.limit data.count))) := by
  intro fuel options result data hname hnorm hsucc hne
  have hiso : (orchestratorFiltered options.hideCompleted
      (taskMapValues (data.taskMap.getD []))).isEmpty = false := by
    cases hh : (orchestratorFiltered options.hideCompleted
        (taskMapValues (data.taskMap.getD []))).isEmpty
    · rfl
    · exact absurd (List.isEmpty_iff.mp hh) hne
  unfold getCustomPerspectiveTasks
  rw [if_neg hname, hnorm]
  simp only [hsucc, Bool.not_true, Bool.false_eq_true, if_false, hiso]
  refine ⟨?_, ?_, ?_⟩
  · intro h1
    rw [if_pos h1]
  · intro h1 h2
    rw [if_neg (by simp [h1]), if_pos h2]
  · intro h1 h2
    rw [if_neg (by simp [h1]), if_neg (by simp [h2])]

/-- An uncompleted task used by the fully successful example run. -/
def sampleTask : TaskRecord := { plainTask with id := "a", name := "Alpha" }

/-- The one-record map of the example run. -/
def sampleMap : TaskMap := [("a", sampleTask)]

/-- A successful collaborator reply carrying that map. -/
def sampleData : PerspectiveData :=
  { success := true, error := none, taskMap := some sampleMap, count := some 1 }

/-- Default options with perspective name "P" (hideCompleted true,
limit 1000, showHierarchy false, groupByProject true). -/
def sampleOptions : GetCustomPerspectiveTasksOptions := { perspectiveName := "P" }

/-- C5 witness: the dispatch statement evaluated at the example run. -/
theorem dispatch_priority_witness :
    ((sampleOptions.showHierarchy = true →
        getCustomPerspectiveTasks 1 sampleOptions (ScriptResult.objectResult sampleData)
          = formatHierarchicalTasks 1 sampleOptions.perspectiveName
              (sampleData.taskMap.getD []) sampleOptions.hideCompleted)
     ∧ (sampleOptions.showHierarchy = false → sampleOptions.groupByProject = true →
        getCustomPerspectiveTasks 1 sampleOptions (ScriptResult.objectResult sampleData)
          = some (formatGroupedByProject sampleOptions.perspectiveName
              (orchestratorFiltered sampleOptions.hideCompleted
                (taskMapValues (sampleData.taskMap.getD [])))
              sampleOptions.limit sampleData.count))
     ∧ (sampleOptions.showHierarchy = false → sampleOptions.groupByProject = false →
        getCustomPerspectiveTasks 1 sampleOptions (ScriptResult.objectResult sampleData)
          = some (formatFlatTasks sampleOptions.perspectiveName
              (orchestratorFiltered sampleOptions.hideCompleted
                (taskMapValues (sampleData.taskMap.getD [])))
              sampleOptions.limit sampleData.count))) :=
  dispatch_priority 1 sampleOptions (ScriptResult.objectResult sampleData) sampleData
    (by decide) rfl rfl (by decide)

/-- The visit trace of the sibling loop: same recursion skeleton as
`renderSiblings`, collecting the visited records instead of their lines. -/
def visitSiblings (v : TaskRecord → Option (List TaskRecord)) :
    List TaskRecord → Option (List TaskRecord)
  | [] => some []
  | c :: rest =>
    match v c, visitSiblings v rest with
    | some a, some b => some (a ++ b)
    | _, _ => none

/-- The visit trace of `renderTaskTree`: the records it visits, in
rendering order, under the same fuel discipline. -/
def visitTree : Nat → TaskMap → Bool → TaskRecord → Option (List TaskRecord)
  | 0, _, _, _ => none
  | fuel + 1, tm, hide, task =>
    (visitSiblings (visitTree fuel tm hide) (filteredChildren tm hide task)).map
      (fun vf => task :: vf)

/-- Number of output lines one visit of a task contributes: its task line
plus its detail lines. -/
def lineWeight (t : TaskRecord) : Nat := 1 + (formatTaskDetails t).length

lemma renderSiblings_cons_eq_some (r : TaskRecord → String → Bool → Option (List String))
    (pfx : String) (c : TaskRecord) (rest : List TaskRecord) (lines : List String) :
    renderSiblings r pfx (c :: rest) = some lines ↔
      ∃ a b, r c pfx rest.isEmpty = some a ∧ renderSiblings r pfx rest = some b
        ∧ lines = a ++ b := by
  cases h1 : r c pfx rest.isEmpty <;> cases h2 : renderSiblings r pfx rest <;>
    simp [renderSiblings, h1, h2, eq_comm]

lemma visitSiblings_cons_eq_some (v : TaskRecord → Option (List TaskRecord))
    (c : TaskRecord) (rest : List TaskRecord) (vs : List TaskRecord) :
    visitSiblings v (c :: rest) = some vs ↔
      ∃ a b, v c = some a ∧ visitSiblings v rest = some b ∧ vs = a ++ b := by
  cases h1 : v c <;> cases h2 : visitSiblings v rest <;>
    simp [visitSiblings, h1, h2, eq_comm]

lemma renderTaskTree_succ_eq (n : Nat) (tm : TaskMap) (hide : Bool)
    (task : TaskRecord) (pfx : String) (isLast : Bool) :
    renderTaskTree (n + 1) tm hide task pfx isLast
      = (renderSiblings (renderTaskTree n tm hide)
            (pfx ++ (if isLast then "   " else "│  "))
            (filteredChildren tm hide task)).map
          (fun childLines =>
            ((pfx ++ (if isLast then "└─ " else "├─ ")) ++ formatTaskName task
                ++ " " ++ formatTaskLink task.id)
              :: ((formatTaskDetails task).map
                    (fun d => (pfx ++ (if isLast then "   " else "│  ")) ++ d)
                  ++ childLines)) := by
  cases h : renderSiblings (renderTaskTree n tm hide)
      (pfx ++ (if isLast then "   " else "│  "))
      (filteredChildren tm hide task) <;>
    simp [renderTaskTree, h]

lemma render_visit_length (fuel : Nat) (tm : TaskMap) (hide : Bool) :
    (∀ (task : TaskRecord) (pfx : String) (isLast : Bool)
        (lines : List String) (vs : List TaskRecord),
      renderTaskTree fuel tm hide task pfx isLast = some lines →
      visitTree fuel tm hide task = some vs →
      lines.length = (vs.map lineWeight).sum)
    ∧ (∀ (cs : List TaskRecord) (pfx : String)
        (lines : List String) (vs : List TaskRecord),
      renderSiblings (renderTaskTree fuel tm hide) pfx cs = some lines →
      visitSiblings (visitTree fuel tm hide) cs = some vs →
      lines.length = (vs.map lineWeight).sum) := by
  induction fuel with
  | zero =>
    constructor
    · intro task pfx isLast lines vs h1 _h2
      simp [renderTaskTree] at h1
    · intro cs
      induction cs with
      | nil =>
        intro pfx lines vs h1 h2
        simp [renderSiblings] at h1
        simp [visitSiblings] at h2
        subst h1; subst h2; rfl
      | cons c rest _ih =>
        intro pfx lines vs h1 _h2
        rw [renderSiblings_cons_eq_some] at h1
        obtain ⟨a, _b, ha, _, _⟩ := h1
        simp [renderTaskTree] at ha
  | succ n ihn =>
    have hT : ∀ (task : TaskRecord) (pfx : String) (isLast : Bool)
        (lines : List String) (vs : List TaskRecord),
        renderTaskTree (n + 1) tm hide task pfx isLast = some lines →
        visitTree (n + 1) tm hide task = some vs →
        lines.length = (vs.map lineWeight).sum := by
      intro task pfx isLast lines vs h1 h2
      rw [renderTaskTree_succ_eq, Option.map_eq_some'] at h1
      simp only [visitTree] at h2
      rw [Option.map_eq_some'] at h2
      obtain ⟨cl, hcl, hlines⟩ := h1
      obtain ⟨vf, hvf, hvs⟩ := h2
      subst hlines; subst hvs
      have hrec := ihn.2 (filteredChildren tm hide task) _ cl vf hcl hvf
      simp [lineWeight, hrec]
      omega
    refine ⟨hT, ?_⟩
    intro cs
    induction cs with
    | nil =>
      intro pfx lines vs h1 h2
      simp [renderSiblings] at h1
      simp [visitSiblings] at h2
      subst h1; subst h2; rfl
    | cons c rest ih =>
      intro pfx lines vs h1 h2
      rw [renderSiblings_cons_eq_some] at h1
      rw [visitSiblings_cons_eq_some] at h2
      obtain ⟨a, b, ha, hb, hlines⟩ := h1
      obtain ⟨a2, b2, ha2, hb2, hvs⟩ := h2
      subst hlines; subst hvs
      have h3 := hT c pfx rest.isEmpty a a2 ha ha2
      have h4 := ih pfx b b2 hb hb2
      simp [List.map_append, List.sum_append, h3, h4]

lemma visit_count (fuel : Nat) (tm : TaskMap) (hide : Bool) (x : TaskRecord) :
    (∀ (task : TaskRecord) (vs : List TaskRecord),
      visitTree fuel tm hide task = some vs →
      vs.count x = (if task = x then 1 else 0)
        + (vs.map (fun s => (filteredChildren tm hide s).count x)).sum)
    ∧ (∀ (cs : List TaskRecord) (vs : List TaskRecord),
      visitSiblings (visitTree fuel tm hide) cs = some vs →
      vs.count x = cs.count x
        + (vs.map (fun s => (filteredChildren tm hide s).count x)).sum) := by
  induction fuel with
  | zero =>
    constructor
    · intro task vs h
      simp [visitTree] at h
    · intro cs
      induction cs with
      | nil =>
        intro vs h
        simp [visitSiblings] at h
        subst h; simp
      | cons c rest _ih =>
        intro vs h
        rw [visitSiblings_cons_eq_some] at h
        obtain ⟨a, _b, ha, _, _⟩ := h
        simp [visitTree] at ha
  | succ n ihn =>
    have hT : ∀ (task : TaskRecord) (vs : List TaskRecord),
        visitTree (n + 1) tm hide task = some vs →
        vs.count x = (if task = x then 1 else 0)
          + (vs.map (fun s => (filteredChildren tm hide s).count x)).sum := by
      intro task vs h
      simp only [visitTree] at h
      rw [Option.map_eq_some'] at h
      obtain ⟨vf, hvf, hvs⟩ := h
      subst hvs
      have hf := ihn.2 (filteredChildren tm hide task) vf hvf
      by_cases hx : task = x <;>
        simp [List.count_cons, hf, hx, beq_iff_eq] <;> omega
    refine ⟨hT, ?_⟩
    intro cs
    induction cs with
    | nil =>
      intro vs h
      simp [visitSiblings] at h
      subst h; simp
    | cons c rest ih =>
      intro vs h
      rw [visitSiblings_cons_eq_some] at h
      obtain ⟨a, b, ha, hb, hvs⟩ := h
      subst hvs
      have h1 := hT c a ha
      have h2 := ih b hb
      by_cases hx : c = x <;>
        simp [List.count_append, List.count_cons, List.map_append,
          List.sum_append, h1, h2, hx, beq_iff_eq] <;> omega

/-- C3: when the hierarchical rendering succeeds, the rendered lines are
accounted for exactly by the visit trace (each visit contributes its one
task line plus its detail lines), and the visit trace counts every task
exactly once per explicit reference: its occurrences among the filtered
roots plus one occurrence per time it appears in the filtered `children`
list of a visited task — rendering is driven purely by the `children`
lists, with no duplication beyond those references. -/
theorem hierarchical_visit_accounting :
    ∀ (fuel : Nat) (tm : TaskMap) (hideCompleted : Bool)
      (lines : List String) (vs : List TaskRecord),
      renderSiblings (renderTaskTree fuel tm hideCompleted) ""
          (hierRoots tm hideCompleted) = some lines →
      visitSiblings (visitTree fuel tm hideCompleted)
          (hierRoots tm hideCompleted) = some vs →
      (lines.length = (vs.map lineWeight).sum
       ∧ ∀ (x : TaskRecord),
          vs.count x = (hierRoots tm hideCompleted).count x
            + (vs.map (fun s => (filteredChildren tm hideCompleted s).count x)).sum) := by
  intro fuel tm hide lines vs h1 h2
  exact ⟨(render_visit_length fuel tm hide).2 _ _ _ _ h1 h2,
    fun x => (visit_count fuel tm hide x).2 _ _ h2⟩

/-- Root task of the two-level example map. -/
def rootWithChild : TaskRecord := { plainTask with id := "a", name := "A", children := ["b"] }

/-- Child task of the two-level example map. -/
def childTask : TaskRecord := { plainTask with id := "b", name := "B", parent := some (some "a") }

/-- The two-level example map: one root `a` whose only child is `b`. -/
def demoMap : TaskMap := [("a", rootWithChild), ("b", childTask)]

/-- C3 witness: the accounting statement evaluated on the two-level
example map at fuel 2. -/
theorem hierarchical_visit_accounting_witness :
    ((["└─ **A** [開く](omnifocus:///task/a)",
       "   └─ **B** [開く](omnifocus:///task/b)"] : List String).length
        = ([rootWithChild, childTask].map lineWeight).sum
     ∧ ∀ (x : TaskRecord),
        ([rootWithChild, childTask] : List TaskRecord).count x
          = (hierRoots demoMap true).count x
            + ([rootWithChild, childTask].map
                (fun s => (filteredChildren demoMap true s).count x)).sum) :=
  hierarchical_visit_accounting 2 demoMap true
    ["└─ **A** [開く](omnifocus:///task/a)",
     "   └─ **B** [開く](omnifocus:///task/b)"]
    [rootWithChild, childTask] rfl rfl

/-- First-seen order of a list of project names: each name at its first
occurrence, later duplicates removed. -/
def firstSeen : List String → List String
  | [] => []
  | p :: ps => p :: firstSeen (ps.filter (fun q => q != p))
termination_by l => l.length
decreasing_by
  simp only [List.length_cons]
  exact Nat.lt_succ_of_le (List.length_filter_le _ _)

/-- The bucket an insertion-ordered mapping holds for key `p`
(`projectGroups.get(p)`, `[]` when absent). -/
def bucketOf (gs : List (String × List TaskRecord)) (p : String) : List TaskRecord :=
  ((gs.find? (fun g => g.1 == p)).map Prod.snd).getD []

lemma addToGroups_keys (gs : List (String × List TaskRecord)) (p : String) (t : TaskRecord) :
    (addToGroups gs p t).map Prod.fst
      = if p ∈ gs.map Prod.fst then gs.map Prod.fst else gs.map Prod.fst ++ [p] := by
  induction gs with
  | nil => simp [addToGroups]
  | cons g rest ih =>
    obtain ⟨q, ts⟩ := g
    by_cases hq : q = p
    · subst hq
      simp [addToGroups]
    · simp only [addToGroups, if_neg hq, List.map_cons, ih]
      by_cases hp : p ∈ rest.map Prod.fst <;>
        simp [hp, hq, Ne.symm hq]


lemma bucketOf_cons_ne (q : String) (ts : List TaskRecord)
    (l : List (String × List TaskRecord)) (p' : String) (h : (q == p') = false) :
    bucketOf ((q, ts) :: l) p' = bucketOf l p' := by
  unfold bucketOf
  rw [List.find?_cons_of_neg _ (by simp [h])]

lemma bucketOf_cons_eq (q : String) (ts : List TaskRecord)
    (l : List (String × List TaskRecord)) (p' : String) (h : (q == p') = true) :
    bucketOf ((q, ts) :: l) p' = ts := by
  unfold bucketOf
  rw [List.find?_cons_of_pos _ (by simp [h])]
  rfl

lemma addToGroups_bucketOf (gs : List (String × List TaskRecord)) (p : String)
    (t : TaskRecord) (p' : String) :
    bucketOf (addToGroups gs p t) p'
      = if p' = p then bucketOf gs p ++ [t] else bucketOf gs p' := by
  induction gs with
  | nil =>
    by_cases h : p' = p
    · subst h
      rw [if_pos rfl]
      show bucketOf [(p', [t])] p' = bucketOf [] p' ++ [t]
      rw [bucketOf_cons_eq _ _ _ _ (by simp)]
      rfl
    · rw [if_neg h]
      show bucketOf [(p, [t])] p' = bucketOf [] p'
      rw [bucketOf_cons_ne _ _ _ _ (beq_eq_false_iff_ne.mpr (Ne.symm h))]
  | cons g rest ih =>
    obtain ⟨q, ts⟩ := g
    by_cases hq : q = p
    · subst hq
      have hadd : addToGroups ((q, ts) :: rest) q t = (q, ts ++ [t]) :: rest := by
        simp [addToGroups]
      rw [hadd]
      by_cases h' : p' = q
      · subst h'
        rw [if_pos rfl, bucketOf_cons_eq _ _ _ _ (by simp),
          bucketOf_cons_eq _ _ _ _ (by simp)]
      · have hb : (q == p') = false := beq_eq_false_iff_ne.mpr (Ne.symm h')
        rw [if_neg h', bucketOf_cons_ne _ _ _ _ hb, bucketOf_cons_ne _ _ _ _ hb]
    · have hadd : addToGroups ((q, ts) :: rest) p t = (q, ts) :: addToGroups rest p t := by
        simp [addToGroups, hq]
      rw [hadd]
      by_cases h' : p' = q
      · subst h'
        have hb : (p' == p') = true := by simp
        rw [if_neg hq, bucketOf_cons_eq _ _ _ _ hb,
          bucketOf_cons_eq _ _ _ _ hb]
      · have hb : (q == p') = false := beq_eq_false_iff_ne.mpr (Ne.symm h')
        rw [bucketOf_cons_ne _ _ _ _ hb, bucketOf_cons_ne _ _ _ _ hb,
          bucketOf_cons_ne _ _ _ _ (beq_eq_false_iff_ne.mpr hq), ih]

lemma groupTasks_fold_inv :
    ∀ (ds : List TaskRecord) (gs : List (String × List TaskRecord)) (ib : List TaskRecord),
      ((ds.foldl groupStep (gs, ib)).1.map Prod.fst
          = gs.map Prod.fst
            ++ firstSeen ((ds.filterMap projectOf).filter
                (fun p => !(gs.map Prod.fst).contains p)))
      ∧ (∀ p', bucketOf (ds.foldl groupStep (gs, ib)).1 p'
          = bucketOf gs p' ++ ds.filter (fun t => projectOf t == some p'))
      ∧ ((ds.foldl groupStep (gs, ib)).2
          = ib ++ ds.filter (fun t => projectOf t == none)) := by
  intro ds
  induction ds with
  | nil => intro gs ib; simp [firstSeen]
  | cons t rest ih =>
    intro gs ib
    cases hp : projectOf t with
    | none =>
      have hstep : groupStep (gs, ib) t = (gs, ib ++ [t]) := by simp [groupStep, hp]
      simp only [List.foldl_cons, hstep]
      obtain ⟨ih1, ih2, ih3⟩ := ih gs (ib ++ [t])
      refine ⟨?_, ?_, ?_⟩
      · rw [ih1]
        simp [List.filterMap_cons, hp]
      · intro p'
        rw [ih2 p']
        simp [List.filter_cons, hp]
      · rw [ih3]
        simp [List.filter_cons, hp]
    | some p0 =>
      have hstep : groupStep (gs, ib) t = (addToGroups gs p0 t, ib) := by simp [groupStep, hp]
      simp only [List.foldl_cons, hstep]
      obtain ⟨ih1, ih2, ih3⟩ := ih (addToGroups gs p0 t) ib
      refine ⟨?_, ?_, ?_⟩
      · rw [ih1, addToGroups_keys]
        by_cases hm : p0 ∈ gs.map Prod.fst
        · rw [if_pos hm]
          simp [List.filterMap_cons, hp, List.filter_cons, hm]
        · rw [if_neg hm]
          have hfm : ((t :: rest).filterMap projectOf).filter
                (fun p => !(gs.map Prod.fst).contains p)
              = p0 :: (rest.filterMap projectOf).filter
                  (fun p => !(gs.map Prod.fst).contains p) := by
            simp [List.filterMap_cons, hp, List.filter_cons, hm]
          rw [hfm]
          have hfs : firstSeen (p0 :: (rest.filterMap projectOf).filter
                (fun p => !(gs.map Prod.fst).contains p))
              = p0 :: firstSeen (((rest.filterMap projectOf).filter
                  (fun p => !(gs.map Prod.fst).contains p)).filter
                    (fun q => q != p0)) := by
            simp [firstSeen]
          rw [hfs, List.append_assoc, List.singleton_append]
          congr 2
          rw [List.filter_filter]
          congr 1
          apply List.filter_congr
          intro a _ha
          by_cases h1 : a ∈ gs.map Prod.fst <;> by_cases h2 : a = p0 <;>
            simp [h1, h2, List.mem_append]
      · intro p'
        rw [ih2 p', addToGroups_bucketOf]
        by_cases h' : p' = p0
        · subst h'
          rw [if_pos rfl]
          simp [List.filter_cons, hp]
        · have hb : ((some p0 : Option String) == some p') = false :=
            beq_eq_false_iff_ne.mpr (fun he => h' (Option.some_inj.mp he).symm)
          rw [if_neg h']
          simp [List.filter_cons, hp, hb]
      · rw [ih3]
        simp [List.filter_cons, hp]

lemma firstSeen_sound : ∀ (n : Nat) (l : List String), l.length ≤ n →
    (∀ x ∈ firstSeen l, x ∈ l) ∧ (firstSeen l).Nodup := by
  intro n
  induction n with
  | zero =>
    intro l hl
    have he : l = [] := List.eq_nil_of_length_eq_zero (Nat.le_zero.mp hl)
    subst he
    simp [firstSeen]
  | succ n ihn =>
    intro l hl
    cases l with
    | nil => simp [firstSeen]
    | cons p ps =>
      have hlen : (ps.filter (fun q => q != p)).length ≤ n := by
        have := List.length_filter_le (fun q => q != p) ps
        simp at hl
        omega
      obtain ⟨hmem, hnd⟩ := ihn _ hlen
      have heq : firstSeen (p :: ps) = p :: firstSeen (ps.filter (fun q => q != p)) := by
        simp [firstSeen]
      constructor
      · intro x hx
        rw [heq] at hx
        rcases List.mem_cons.mp hx with h | h
        · exact h ▸ List.mem_cons_self _ _
        · exact List.mem_cons_of_mem _ (List.mem_of_mem_filter (hmem x h))
      · rw [heq]
        refine List.nodup_cons.mpr ⟨?_, hnd⟩
        intro hmem2
        have hbp := List.of_mem_filter (hmem p hmem2)
        simp at hbp

/-- C8: the grouped renderer buckets the display tasks by truthy project
in first-seen project order (each project exactly once), the bucket of a
project is exactly the display tasks carrying that project in their
original relative order, the inbox holds exactly the projectless tasks in
order, and the body lines place every project section first and the inbox
section last, emitted only when non-empty — while the summary's project
count (`(groupTasks …).1.length` in `formatGroupedByProject`) counts the
project buckets only, never the inbox. -/
theorem grouped_by_project_structure :
    ∀ (tasks : List TaskRecord) (limit : Int),
      ((groupTasks (displayedTasks tasks limit)).1.map Prod.fst
          = firstSeen ((displayedTasks tasks limit).filterMap projectOf))
      ∧ ((groupTasks (displayedTasks tasks limit)).1.map Prod.fst).Nodup
      ∧ (∀ p, bucketOf (groupTasks (displayedTasks tasks limit)).1 p
          = (displayedTasks tasks limit).filter (fun t => projectOf t == some p))
      ∧ ((groupTasks (displayedTasks tasks limit)).2
          = (displayedTasks tasks limit).filter (fun t => projectOf t == none))
      ∧ ((groupTasks (displayedTasks tasks limit)).2 = [] →
          groupedBodyLines (groupTasks (displayedTasks tasks limit)).1
              (groupTasks (displayedTasks tasks limit)).2
            = ((groupTasks (displayedTasks tasks limit)).1).flatMap
                (fun g => projectSection g.1 g.2))
      ∧ ((groupTasks (displayedTasks tasks limit)).2 ≠ [] →
          groupedBodyLines (groupTasks (displayedTasks tasks limit)).1
              (groupTasks (displayedTasks tasks limit)).2
            = ((groupTasks (displayedTasks tasks limit)).1).flatMap
                (fun g => projectSection g.1 g.2)
              ++ inboxSection (groupTasks (displayedTasks tasks limit)).2) := by
  intro tasks limit
  obtain ⟨h1, h2, h3⟩ := groupTasks_fold_inv (displayedTasks tasks limit) [] []
  have e : groupTasks (displayedTasks tasks limit)
      = (displayedTasks tasks limit).foldl groupStep ([], []) := rfl
  have hkeys : (groupTasks (displayedTasks tasks limit)).1.map Prod.fst
      = firstSeen ((displayedTasks tasks limit).filterMap projectOf) := by
    rw [e, h1]
    simp
  refine ⟨hkeys, ?_, ?_, ?_, ?_, ?_⟩
  · rw [hkeys]
    exact (firstSeen_sound _ _ le_rfl).2
  · intro p
    rw [e, h2 p]
    simp [bucketOf]
  · rw [e, h3]
    simp
  · intro hnil
    simp [groupedBodyLines, hnil]
  · intro hnn
    have hie : (groupTasks (displayedTasks tasks limit)).2.isEmpty = false := by
      cases h : (groupTasks (displayedTasks tasks limit)).2.isEmpty
      · rfl
      · exact absurd (List.isEmpty_iff.mp h) hnn
    simp [groupedBodyLines, hie]

/-- A collaborator reply that failed and carries a present-but-empty
error message. -/
def emptyErrorData : PerspectiveData :=
  { success := false, error := some "", taskMap := none, count := none }

/-- C9 counterexample: on `success=false` with a present but EMPTY error
message, the orchestrator does not surface the message verbatim — JS
`data.error || 'Unknown error occurred'` treats the empty string as falsy
and substitutes the generic message. -/
theorem error_message_verbatim_counterexample :
    getCustomPerspectiveTasks 1 { perspectiveName := "P" }
        (ScriptResult.objectResult emptyErrorData)
      = some "❌ **错误**: Unknown error occurred" ∧
    emptyErrorData.error = some "" ∧
    ("❌ **错误**: Unknown error occurred" : String) ≠ "❌ **错误**: " ++ "" := by
  refine ⟨rfl, rfl, by decide⟩

/-- C9 amended: for every input the orchestrator returns normally with a
formatted `❌ **错误**: `-prefixed string on each failure path — an empty
perspective name always yields the validation message (for any collaborator
result, so no rendering is attempted), an unparseable string payload yields
the decode error carrying the raw payload, an invalid result type yields
the type error, and a `success=false` reply surfaces the collaborator's
message verbatim when it is present AND non-empty, else (absent or empty)
the generic unknown-error message. -/
theorem orchestrator_error_paths_amended :
    ∀ (fuel : Nat) (options : GetCustomPerspectiveTasksOptions) (result : ScriptResult),
      (options.perspectiveName = "" →
        getCustomPerspectiveTasks fuel options result = some "❌ **错误**: 透视名称不能为空")
      ∧ (options.perspectiveName ≠ "" →
          (∀ raw, result = ScriptResult.stringResult raw none →
            getCustomPerspectiveTasks fuel options result
              = some ("❌ **错误**: " ++ ("解析字符串结果失败: " ++ raw)))
          ∧ (∀ ty val, result = ScriptResult.invalidResult ty val →
            getCustomPerspectiveTasks fuel options result
              = some ("❌ **错误**: " ++ ("脚本执行返回了无效的结果类型: " ++ ty ++ ", 值: " ++ val)))
          ∧ (∀ data, normalizeResult result = .ok data → data.success = false →
              ((∀ e, data.error = some e → e ≠ "" →
                  getCustomPerspectiveTasks fuel options result = some ("❌ **错误**: " ++ e))
               ∧ ((data.error = none ∨ data.error = some "") →
                  getCustomPerspectiveTasks fuel options result
                    = some ("❌ **错误**: " ++ "Unknown error occurred"))))) := by
  intro fuel options result
  constructor
  · intro h
    simp [getCustomPerspectiveTasks, h]
  · intro hn
    have hbody : ∀ (data : PerspectiveData) (msg : String),
        normalizeResult result = .ok data → data.success = false →
        collaboratorErrorMessage data = msg →
        getCustomPerspectiveTasks fuel options result = some ("❌ **错误**: " ++ msg) := by
      intro data msg hok hfail hmsg
      simp [getCustomPerspectiveTasks, hn, hok, hfail, hmsg]
    refine ⟨?_, ?_, ?_⟩
    · intro raw hres
      subst hres
      simp [getCustomPerspectiveTasks, hn, normalizeResult]
    · intro ty val hres
      subst hres
      simp [getCustomPerspectiveTasks, hn, normalizeResult]
    · intro data hok hfail
      constructor
      · intro e he hne
        exact hbody data e hok hfail (by simp [collaboratorErrorMessage, he, hne])
      · intro hcase
        apply hbody data _ hok hfail
        rcases hcase with h | h <;> simp [collaboratorErrorMessage, h]
